import Mathlib

/-!
Shallow embedding of the project-board application (`src/app.ts`,
`src/components/project-input.ts`, and the unnamed component/state files).

TypeScript `number` is modelled as `Option Int` where `none` stands for
`NaN` (fractional values never arise in the embedded fragment).  JavaScript
strings are Lean `String`s; `String.prototype.trim` and the string→number
coercion of unary `+` are modelled explicitly below.
-/

/-- TS `number`: `none` models `NaN`. -/
abbrev JSNum := Option Int

/-- Fuelled digit printer; the fuel only bounds the recursion depth and
`natDigits` always supplies enough of it. -/
def natDigitsAux : Nat → Nat → List Char
  | 0, _ => []
  | fuel + 1, n =>
      if n < 10 then [Nat.digitChar n]
      else natDigitsAux fuel (n / 10) ++ [Nat.digitChar (n % 10)]

/-- Decimal digit list of a natural number, most significant first. -/
def natDigits (n : Nat) : List Char := natDigitsAux (n + 1) n

/-- Model of JS `Number.prototype.toString` (and `NaN.toString()`),
restricted to the integral values the program produces. -/
def jsNumToString (n : JSNum) : String :=
  match n with
  | none => "NaN"
  | some i => if i < 0 then ⟨'-' :: natDigits (-i).toNat⟩ else ⟨natDigits i.toNat⟩

/-- Model of JS `String.prototype.trim`: drop leading and trailing
whitespace characters. -/
def jsTrim (s : String) : String :=
  ⟨((s.data.dropWhile Char.isWhitespace).reverse.dropWhile Char.isWhitespace).reverse⟩

/-- Numeric value of a decimal digit list, most significant first. -/
def digitsToNat (l : List Char) : Nat :=
  l.foldl (fun n c => n * 10 + (c.toNat - 48)) 0

/-- Model of JS unary `+` on a string (`+enteredPeople` in
`gatherUserInput`), restricted to optional-sign decimal integer literals:
a whitespace-only string coerces to `0`, a (signed) digit string parses,
anything else is `NaN`. -/
def jsPlus (s : String) : JSNum :=
  match (jsTrim s).data with
  | [] => some 0
  | '-' :: rest =>
      if !rest.isEmpty && rest.all Char.isDigit then some (-(digitsToNat rest : Int)) else none
  | l => if l.all Char.isDigit then some ((digitsToNat l : Int)) else none

/-- The TS union `string | number` used by `Validatable.value`. -/
inductive JSValue
  | str (s : String)
  | num (n : JSNum)
deriving DecidableEq

/-- Model of `input.value.toString()`: identity on strings, number
printing on numbers. -/
def JSValue.asString : JSValue → String
  | .str s => s
  | .num n => jsNumToString n

/-- The `Validatable` interface (app.ts lines 15-22): a value plus
optional constraints.  An absent optional field is `none`; `required`
absent is the falsy `false`. -/
structure Validatable where
  value : JSValue
  required : Bool := false
  minLength : Option Int := none
  maxLength : Option Int := none
  min : Option Int := none
  max : Option Int := none

/-- The `validate` function (app.ts lines 24-42): each present and
type-applicable constraint is conjoined into `isValid`. -/
def validate (input : Validatable) : Bool :=
  let v1 : Bool := if input.required then (jsTrim input.value.asString).length != 0 else true
  let v2 : Bool :=
    match input.minLength, input.value with
    | some m, .str s => decide (m ≤ (s.length : Int))
    | _, _ => true
  let v3 : Bool :=
    match input.maxLength, input.value with
    | some m, .str s => decide ((s.length : Int) ≤ m)
    | _, _ => true
  let v4 : Bool :=
    match input.min, input.value with
    | some m, .num (some v) => decide (m ≤ v)
    | some _, .num none => false
    | _, _ => true
  let v5 : Bool :=
    match input.max, input.value with
    | some m, .num (some v) => decide (v ≤ m)
    | some _, .num none => false
    | _, _ => true
  v1 && v2 && v3 && v4 && v5

/-- `enum ProjectStatus { Active, Finished }` (app.ts lines 44-46). -/
inductive ProjectStatus
  | active
  | finished
deriving DecidableEq

/-- The `Project` class (app.ts lines 49-56). -/
structure Project where
  id : String
  title : String
  description : String
  people : JSNum
  status : ProjectStatus
deriving DecidableEq

/-- Listeners are opaque callbacks; the embedding identifies a registered
listener by the index it received at registration, and records each
invocation as an explicit event. -/
abbrev ListenerId := Nat

/-- One listener invocation: which registered listener was called, and
the snapshot passed to it. -/
abbrev ListenerCall := ListenerId × List Project

/-- The observable state of `ProjectState` (app.ts lines 61-94): the
ordered project list and the registered listeners in registration
order. -/
structure ProjectState where
  projects : List Project
  listeners : List ListenerId
deriving DecidableEq

/-- The `for (const listenerFn of this.listeners) listenerFn(this.projects.slice())`
loop: one call per registered listener, in registration order, each with
the snapshot. -/
def notifyListeners (listeners : List ListenerId) (snapshot : List Project) : List ListenerCall :=
  match listeners with
  | [] => []
  | l :: rest => (l, snapshot) :: notifyListeners rest snapshot

/-- `ProjectState.addProject` (app.ts lines 81-93).  `freshId` is the
string drawn from `Math.random().toString()`: the random draw is an
input of the model, not a function of the state. -/
def addProject (s : ProjectState) (freshId title description : String)
    (numOfPeople : JSNum) : ProjectState × List ListenerCall :=
  let newProject : Project := ⟨freshId, title, description, numOfPeople, .active⟩
  let projects := s.projects ++ [newProject]
  (⟨projects, s.listeners⟩, notifyListeners s.listeners projects)

/-- `State.addListener` (app.ts lines 63-65): push onto the listener
list. -/
def addListener (s : ProjectState) (l : ListenerId) : ProjectState :=
  ⟨s.projects, s.listeners ++ [l]⟩

/-- In-place mutation `project.status = newStatus` of the first project
`find` locates: rewrite the status of the first element whose id
matches, leave everything else untouched. -/
def setStatusFirst (projects : List Project) (projectId : String)
    (newStatus : ProjectStatus) : List Project :=
  match projects with
  | [] => []
  | p :: rest =>
      if p.id = projectId then { p with status := newStatus } :: rest
      else p :: setStatusFirst rest projectId newStatus

/-- Modelled from the spec: the repository imports a `state/project`
module (see `src/src/components/project-input.ts` line 2) whose source is
not among the provided files; only `addProject` appears in the provided
snapshots.  `moveProject` is modelled from spec §4.1 and §9: look up the
project with the given id; if found, set its status unconditionally (§9:
the source does not guard on status equality) and synchronously notify
every listener with a fresh snapshot in registration order; if no
project matches, the call is a no-op that raises no error and sends no
notification. -/
def moveProject (s : ProjectState) (projectId : String)
    (newStatus : ProjectStatus) : ProjectState × List ListenerCall :=
  if s.projects.any (fun p => p.id = projectId) then
    let projects := setStatusFirst s.projects projectId newStatus
    (⟨projects, s.listeners⟩, notifyListeners s.listeners projects)
  else
    (s, [])

/-- The empty store created by the first `getInstance()` call. -/
def initialState : ProjectState := ⟨[], []⟩

/-- A mutating call on the store, with the random id draw made explicit
for `add`. -/
inductive StoreOp
  | add (freshId title description : String) (numOfPeople : JSNum)
  | move (projectId : String) (newStatus : ProjectStatus)
deriving DecidableEq

/-- Apply one mutating call, returning the new state and the listener
invocations it produced. -/
def applyStoreOp (s : ProjectState) (op : StoreOp) : ProjectState × List ListenerCall :=
  match op with
  | .add freshId title description numOfPeople => addProject s freshId title description numOfPeople
  | .move projectId newStatus => moveProject s projectId newStatus

/-- Run a sequence of mutating calls, keeping only the state. -/
def execStore (s : ProjectState) (ops : List StoreOp) : ProjectState :=
  match ops with
  | [] => s
  | op :: rest => execStore (applyStoreOp s op).1 rest

/-- The ids drawn for the `add` calls of an operation sequence. -/
def addIds (ops : List StoreOp) : List String :=
  match ops with
  | [] => []
  | .add freshId _ _ _ :: rest => freshId :: addIds rest
  | .move _ _ :: rest => addIds rest

/-- The three text fields of the input form (`titleInputElement.value`
etc. in `project-input.ts`). -/
structure FormState where
  title : String
  description : String
  people : String
deriving DecidableEq

/-- The `validateTitle` constraint object built in `gatherUserInput`
(project-input.ts lines 41-46). -/
def validatableTitle (enteredTitle : String) : Validatable :=
  { value := .str enteredTitle, required := true, minLength := some 1, maxLength := some 15 }

/-- The `validateDescription` constraint object (project-input.ts lines
47-52). -/
def validatableDescription (enteredDescription : String) : Validatable :=
  { value := .str enteredDescription, required := true, minLength := some 5, maxLength := some 50 }

/-- The `validatePeople` constraint object (project-input.ts lines
53-58); its value is the already-coerced number `+enteredPeople`. -/
def validatablePeople (peopleNum : JSNum) : Validatable :=
  { value := .num peopleNum, required := true, min := some 1, max := some 10 }

/-- `ProjectInput.gatherUserInput` (project-input.ts lines 36-71):
returns the entered title, the entered description and the coerced
people number when all three constraint checks pass; otherwise fires the
alert and returns nothing (`none`). -/
def gatherUserInput (f : FormState) : Option (String × String × JSNum) :=
  if validate (validatableTitle f.title)
      && validate (validatableDescription f.description)
      && validate (validatablePeople (jsPlus f.people)) then
    some (f.title, f.description, jsPlus f.people)
  else
    none

/-- `clearInputs` (project-input.ts lines 72-76): all three fields are
set to the empty string. -/
def clearInputs : FormState := ⟨"", "", ""⟩

/-- `ProjectInput.submitHandler` (project-input.ts lines 26-35): gather
the input; if it is an array, destructure it and call
`projectState.addProject`; then — on both paths — `clearInputs()`.
Returns the store outcome (state and listener calls), the form fields
after the handler, and whether the alert fired. -/
def submitHandler (s : ProjectState) (f : FormState) (freshId : String) :
    (ProjectState × List ListenerCall) × FormState × Bool :=
  match gatherUserInput f with
  | some (title, desc, people) => (addProject s freshId title desc people, clearInputs, false)
  | none => ((s, []), clearInputs, true)

/-- The column kind of a `ProjectList` (`'active' | 'finished'`). -/
inductive ColumnType
  | active
  | finished
deriving DecidableEq

/-- The filter inside the `ProjectList` listener (unnamed part_000 lines
52-57 / app.ts lines 141-146): keep exactly the projects whose status
matches the column. -/
def relevantProjects (ty : ColumnType) (projects : List Project) : List Project :=
  projects.filter (fun proj =>
    if ty = ColumnType.active then decide (proj.status = ProjectStatus.active)
    else decide (proj.status = ProjectStatus.finished))

/-- Run the listener calls of one notification against a column cache:
each call addressed to this column's listener replaces
`assignedProjects` with the filtered snapshot. -/
def applyCalls (ty : ColumnType) (lid : ListenerId) (cache : List Project)
    (calls : List ListenerCall) : List Project :=
  calls.foldl (fun c e => if e.1 = lid then relevantProjects ty e.2 else c) cache

/-- Store plus the two columns' cached `assignedProjects` lists. -/
structure BoardState where
  store : ProjectState
  activeCache : List Project
  finishedCache : List Project
deriving DecidableEq

/-- The page at startup: the active column subscribes first (listener 0),
then the finished column (listener 1), both with empty caches, matching
the construction order at the bottom of the source. -/
def initialBoard : BoardState := ⟨⟨[], [0, 1]⟩, [], []⟩

/-- One mutating store call as observed by the whole board: the store
steps and each column processes the notification addressed to it. -/
def boardStep (b : BoardState) (op : StoreOp) : BoardState :=
  let r := applyStoreOp b.store op
  ⟨r.1, applyCalls .active 0 b.activeCache r.2, applyCalls .finished 1 b.finishedCache r.2⟩

/-- Run a sequence of mutating calls against the whole board. -/
def execBoard (b : BoardState) (ops : List StoreOp) : BoardState :=
  match ops with
  | [] => b
  | op :: rest => execBoard (boardStep b op) rest

/-- Number of `add` calls in an operation sequence. -/
def countAdds (ops : List StoreOp) : Nat :=
  match ops with
  | [] => 0
  | .add _ _ _ _ :: rest => countAdds rest + 1
  | .move _ _ :: rest => countAdds rest

/-!
Reference-level view for the snapshot-aliasing question.  In JavaScript
the store's array holds references to `Project` objects, and
`this.projects.slice()` (app.ts line 91) copies the array but not the
objects: the snapshot is a new array containing the same references.
The heap maps references to project records.
-/

/-- The JS heap, restricted to `Project` objects: a reference (address)
resolves to the project record currently stored there. -/
structure Heap where
  projs : Nat → Project

/-- The store's internal array in the reference-level view: an ordered
list of references to the projects it owns. -/
structure RefStore where
  projectRefs : List Nat
deriving DecidableEq

/-- `this.projects.slice()`: a fresh array holding the same references
in the same order. -/
def snapshotRefs (s : RefStore) : List Nat := s.projectRefs

/-- The project sequence the store observes: each of its references
resolved through the heap. -/
def storeView (h : Heap) (s : RefStore) : List Project :=
  s.projectRefs.map h.projs

/-- A listener mutating an element of its snapshot, e.g.
`snapshot[i].status = newStatus`: the write goes through the reference
into the heap. -/
def writeStatus (h : Heap) (r : Nat) (st : ProjectStatus) : Heap :=
  ⟨fun x => if x = r then { h.projs x with status := st } else h.projs x⟩

/-- The wiring invariant of the running page: both columns are
subscribed (active first), and each cached list is exactly the filtered
view of the store's current sequence. -/
def BoardInv (b : BoardState) : Prop :=
  b.store.listeners = [0, 1] ∧
  b.activeCache = relevantProjects .active b.store.projects ∧
  b.finishedCache = relevantProjects .finished b.store.projects

example : (addProject initialState "0.5" "t" "d" (some 3)).1.projects =
    [⟨"0.5", "t", "d", some 3, .active⟩] := by decide

example : jsPlus " 12 " = some 12 := by decide
example : jsPlus "x" = none := by decide
example : jsPlus "" = some 0 := by decide
example : jsPlus "-4" = some (-4) := by decide
example : jsTrim "  hi " = "hi" := by decide
example : validate ⟨.str "a", true, some 1, some 15, none, none⟩ = true := by decide
example : validate ⟨.str "", true, some 1, some 15, none, none⟩ = false := by decide
example : validate ⟨.num (some 0), true, none, none, some 1, some 10⟩ = false := by decide

/-! ### Helper lemmas -/

theorem notifyListeners_eq_map (listeners : List ListenerId) (snapshot : List Project) :
    notifyListeners listeners snapshot = listeners.map (fun l => (l, snapshot)) := by
  induction listeners with
  | nil => rfl
  | cons l rest ih => simp [notifyListeners, ih]

theorem dropWhile_eq_self_of_none (p : Char → Bool) (l : List Char)
    (h : ∀ c ∈ l, p c = false) : l.dropWhile p = l := by
  cases l with
  | nil => rfl
  | cons c rest => simp [List.dropWhile_cons, h c (by simp)]

theorem jsTrim_eq_self (s : String) (h : ∀ c ∈ s.data, c.isWhitespace = false) :
    jsTrim s = s := by
  unfold jsTrim
  rw [dropWhile_eq_self_of_none _ _ h,
    dropWhile_eq_self_of_none _ _ (fun c hc => h c (List.mem_reverse.mp hc)),
    List.reverse_reverse]

theorem digitChar_not_whitespace (d : Nat) : (Nat.digitChar d).isWhitespace = false := by
  rcases Nat.lt_or_ge d 16 with h | h
  · interval_cases d <;> decide
  · unfold Nat.digitChar
    repeat rw [if_neg (by omega)]
    decide

theorem natDigits_ne_nil (n : Nat) : natDigits n ≠ [] := by
  unfold natDigits natDigitsAux
  split
  · simp
  · simp

theorem natDigitsAux_no_whitespace (fuel : Nat) :
    ∀ n, ∀ c ∈ natDigitsAux fuel n, c.isWhitespace = false := by
  induction fuel with
  | zero => simp [natDigitsAux]
  | succ fuel ih =>
    intro n c hc
    rw [natDigitsAux] at hc
    split at hc
    · rw [List.mem_singleton] at hc
      subst hc
      exact digitChar_not_whitespace n
    · rcases List.mem_append.mp hc with hc | hc
      · exact ih (n / 10) c hc
      · rw [List.mem_singleton] at hc
        subst hc
        exact digitChar_not_whitespace _

theorem natDigits_no_whitespace (n : Nat) : ∀ c ∈ natDigits n, c.isWhitespace = false :=
  natDigitsAux_no_whitespace (n + 1) n

theorem jsNumToString_trim_length_ne_zero (n : JSNum) :
    (jsTrim (jsNumToString n)).length ≠ 0 := by
  match n with
  | none => decide
  | some i =>
    show (jsTrim (if i < 0 then _ else _)).length ≠ 0
    split
    · rw [jsTrim_eq_self]
      · simp [String.length]
      · intro c hc
        rcases List.mem_cons.mp hc with hc | hc
        · subst hc; decide
        · exact natDigits_no_whitespace _ c hc
    · rw [jsTrim_eq_self]
      · simpa [String.length, List.length_eq_zero] using natDigits_ne_nil i.toNat
      · exact natDigits_no_whitespace _

theorem jsTrim_data_eq_nil_iff (s : String) :
    (jsTrim s).data = [] ↔ ∀ c ∈ s.data, c.isWhitespace = true := by
  unfold jsTrim
  rw [List.reverse_eq_nil_iff, List.dropWhile_eq_nil_iff]
  constructor
  · intro h c hc
    have hsplit := List.takeWhile_append_dropWhile (p := Char.isWhitespace) (l := s.data)
    rw [← hsplit] at hc
    rcases List.mem_append.mp hc with hc | hc
    · exact List.mem_takeWhile_imp hc
    · exact h c (List.mem_reverse.mpr hc)
  · intro h c hc
    exact h c ((List.dropWhile_sublist _).mem (List.mem_reverse.mp hc))

/-! ### Claim theorems -/

/-- C1: every `addProject` call leaves the prior project sequence as an
unchanged prefix with exactly one new project appended at the end; the
new project is built from the supplied id, title, description and people
count with status Active; and the call produces exactly one synchronous
invocation per registered listener, in registration order, each
receiving the full updated sequence. -/
theorem addProject_appends_active_and_notifies (s : ProjectState)
    (freshId title description : String) (numOfPeople : JSNum) :
    (addProject s freshId title description numOfPeople).1.projects =
      s.projects ++ [⟨freshId, title, description, numOfPeople, ProjectStatus.active⟩] ∧
    (∃ p : Project, (addProject s freshId title description numOfPeople).1.projects =
      s.projects ++ [p] ∧ p.status = ProjectStatus.active) ∧
    (addProject s freshId title description numOfPeople).1.listeners = s.listeners ∧
    (addProject s freshId title description numOfPeople).2 =
      s.listeners.map
        (fun l => (l, (addProject s freshId title description numOfPeople).1.projects)) := by
  refine ⟨rfl, ⟨_, rfl, rfl⟩, rfl, ?_⟩
  simp [addProject, notifyListeners_eq_map]

/-- C10: the required check of `validate` passes for every numeric value
(the string form of a number, `NaN` included, never trims to the empty
string) and rejects a string exactly when it is empty or consists solely
of whitespace; with no constraint options set at all, `validate` accepts
every value. -/
theorem validate_required_semantics :
    (∀ n : JSNum, validate { value := .num n, required := true } = true) ∧
    (∀ s : String,
      (validate { value := .str s, required := true } = false ↔
        ∀ c ∈ s.data, c.isWhitespace = true)) ∧
    (∀ v : JSValue, validate { value := v } = true) := by
  refine ⟨?_, ?_, ?_⟩
  · intro n
    simp only [validate, JSValue.asString, Bool.and_true]
    exact bne_iff_ne.mpr (jsNumToString_trim_length_ne_zero n)
  · intro s
    simp only [validate, JSValue.asString, Bool.and_true, if_true]
    rw [← jsTrim_data_eq_nil_iff]
    constructor
    · intro h
      rw [bne_eq_false_iff_eq] at h
      exact List.length_eq_zero.mp h
    · intro h
      rw [bne_eq_false_iff_eq]
      exact List.length_eq_zero.mpr h
  · intro v
    cases v <;> simp [validate]

/-- C8: boundary behavior of the input constraints: titles of length 1
and 15 pass while every title of length 0 or 16 fails, and people values
1 and 10 pass while 0 and 11 fail. -/
theorem validation_boundaries :
    validate (validatableTitle "a") = true ∧
    validate (validatableTitle "abcdeabcdeabcde") = true ∧
    (∀ t : String, t.length = 0 → validate (validatableTitle t) = false) ∧
    (∀ t : String, t.length = 16 → validate (validatableTitle t) = false) ∧
    validate (validatablePeople (some 1)) = true ∧
    validate (validatablePeople (some 10)) = true ∧
    validate (validatablePeople (some 0)) = false ∧
    validate (validatablePeople (some 11)) = false := by
  refine ⟨by decide, by decide, ?_, ?_, by decide, by decide, by decide, by decide⟩
  · intro t h
    have hd : t.data = [] := List.length_eq_zero.mp h
    obtain ⟨d⟩ := t
    simp only [String.data] at hd
    subst hd
    decide
  · intro t h
    simp [validate, validatableTitle, JSValue.asString, h]

/-- C8 witness: the boundary failures applied at length-16 and length-0
titles. -/
theorem validation_boundaries_witness :
    validate (validatableTitle "abcdefghijklmnop") = false ∧
    validate (validatableTitle "") = false :=
  ⟨validation_boundaries.2.2.2.1 "abcdefghijklmnop" (by decide),
   validation_boundaries.2.2.1 "" (by decide)⟩

/-- C2 counterexample: with a 16-character title validation fails, the
alert fires and no project is added, but the three fields do not retain
their entered values — they are cleared. -/
theorem failure_clears_fields_cex :
    gatherUserInput ⟨"ThisTitleIsTooLg", "A valid description", "5"⟩ = none ∧
    submitHandler initialState ⟨"ThisTitleIsTooLg", "A valid description", "5"⟩ "0.1" =
      ((initialState, []), clearInputs, true) ∧
    (⟨"ThisTitleIsTooLg", "A valid description", "5"⟩ : FormState) ≠ clearInputs := by
  decide

/-- C2 amended: on validation failure the user is alerted, no project is
added and no listener fires, but the three fields are cleared
(`clearInputs()` runs after both branches of the handler). -/
theorem submit_failure_behavior (s : ProjectState) (f : FormState) (freshId : String)
    (h : gatherUserInput f = none) :
    submitHandler s f freshId = ((s, []), clearInputs, true) := by
  simp [submitHandler, h]

/-- C2 witness: the failure behavior at a concrete store and form. -/
theorem submit_failure_behavior_witness :
    gatherUserInput ⟨"", "descr", "3"⟩ = none ∧
    submitHandler initialState ⟨"", "descr", "3"⟩ "0.2" =
      ((initialState, []), clearInputs, true) :=
  ⟨by decide, submit_failure_behavior initialState ⟨"", "descr", "3"⟩ "0.2" (by decide)⟩

/-- C9 counterexample: a title passing validation with surrounding
whitespace reaches `addProject` untrimmed: the stored title is the raw
entered string, which differs from its trimmed form. -/
theorem untrimmed_arguments_cex :
    gatherUserInput ⟨" hi ", "descr", "5"⟩ = some (" hi ", "descr", some 5) ∧
    (submitHandler initialState ⟨" hi ", "descr", "5"⟩ "0.3").1.1.projects =
      [⟨"0.3", " hi ", "descr", some 5, ProjectStatus.active⟩] ∧
    jsTrim " hi " ≠ " hi " := by
  decide

/-- C9 amended: when all three constraint checks pass, the handler calls
`addProject` with exactly the entered (untrimmed) title and description
and the coerced people number, then clears the fields without an
alert. -/
theorem submit_success_calls_addProject (s : ProjectState) (f : FormState) (freshId : String)
    (h1 : validate (validatableTitle f.title) = true)
    (h2 : validate (validatableDescription f.description) = true)
    (h3 : validate (validatablePeople (jsPlus f.people)) = true) :
    submitHandler s f freshId =
      (addProject s freshId f.title f.description (jsPlus f.people), clearInputs, false) := by
  simp [submitHandler, gatherUserInput, h1, h2, h3]

/-- C9 witness: the success path at the concrete example project. -/
theorem submit_success_calls_addProject_witness :
    submitHandler initialState ⟨"Build API", "Design the REST API", "3"⟩ "0.4" =
      (addProject initialState "0.4" "Build API" "Design the REST API" (some 3),
        clearInputs, false) := by
  have h := submit_success_calls_addProject initialState
    ⟨"Build API", "Design the REST API", "3"⟩ "0.4" (by decide) (by decide) (by decide)
  simpa using h

/-- C4: a `moveProject` call whose id matches no project leaves the
state (sequence and listeners) unchanged, produces no listener calls,
and returns normally — the model is a total function with no error
outcome. -/
theorem moveProject_miss_noop (s : ProjectState) (projectId : String)
    (newStatus : ProjectStatus) (h : ∀ p ∈ s.projects, p.id ≠ projectId) :
    moveProject s projectId newStatus = (s, []) := by
  unfold moveProject
  rw [if_neg]
  simp only [List.any_eq_true, decide_eq_true_eq, not_exists]
  intro p
  rw [not_and]
  exact h p

/-- C4 witness: the miss behavior at a concrete single-project store. -/
theorem moveProject_miss_noop_witness :
    moveProject ⟨[⟨"a", "t", "d", some 1, ProjectStatus.active⟩], [0, 1]⟩ "b"
        ProjectStatus.finished =
      (⟨[⟨"a", "t", "d", some 1, ProjectStatus.active⟩], [0, 1]⟩, []) :=
  moveProject_miss_noop _ "b" ProjectStatus.finished (by decide)

theorem setStatusFirst_map_id (l : List Project) (i : String) (st : ProjectStatus) :
    (setStatusFirst l i st).map Project.id = l.map Project.id := by
  induction l with
  | nil => rfl
  | cons p rest ih =>
    unfold setStatusFirst
    split
    · simp
    · simp [ih]

theorem setStatusFirst_getElem?_of_ne (l : List Project) (i : String) (st : ProjectStatus)
    (k : Nat) (h : ∀ q, l[k]? = some q → q.id ≠ i) :
    (setStatusFirst l i st)[k]? = l[k]? := by
  induction l generalizing k with
  | nil => rfl
  | cons p rest ih =>
    unfold setStatusFirst
    split
    case isTrue hpi =>
      cases k with
      | zero => exact absurd hpi (h p (by simp))
      | succ k => simp
    case isFalse hpi =>
      cases k with
      | zero => simp
      | succ k =>
        simp only [List.getElem?_cons_succ]
        exact ih k (fun q hq => h q (by simpa using hq))

theorem setStatusFirst_status_of_id (l : List Project) (i : String) (st : ProjectStatus)
    (hnd : (l.map Project.id).Nodup) :
    ∀ q ∈ setStatusFirst l i st, q.id = i → q.status = st := by
  induction l with
  | nil => simp [setStatusFirst]
  | cons p rest ih =>
    rw [List.map_cons, List.nodup_cons] at hnd
    unfold setStatusFirst
    split
    case isTrue hpi =>
      intro q hq hqi
      rcases List.mem_cons.mp hq with hq | hq
      · subst hq; rfl
      · exfalso
        apply hnd.1
        rw [hpi, ← hqi]
        exact List.mem_map_of_mem Project.id hq
    case isFalse hpi =>
      intro q hq hqi
      rcases List.mem_cons.mp hq with hq | hq
      · subst hq; exact absurd hqi hpi
      · exact ih hnd.2 q hq hqi

/-- C3: for a project P in a store whose ids satisfy the documented
uniqueness invariant, `moveProject P.id S` yields a state in which
exactly one project carries id P.id and that project's status is S,
every project with a different id is unchanged at its position, and all
listeners are called synchronously in registration order with the full
updated sequence. -/
theorem moveProject_found_spec (s : ProjectState) (P : Project) (S : ProjectStatus)
    (hmem : P ∈ s.projects) (hnd : (s.projects.map Project.id).Nodup) :
    ((moveProject s P.id S).1.projects.map Project.id).count P.id = 1 ∧
    (∀ q ∈ (moveProject s P.id S).1.projects, q.id = P.id → q.status = S) ∧
    (∀ k : Nat, (∀ q, s.projects[k]? = some q → q.id ≠ P.id) →
      (moveProject s P.id S).1.projects[k]? = s.projects[k]?) ∧
    (moveProject s P.id S).1.listeners = s.listeners ∧
    (moveProject s P.id S).2 =
      s.listeners.map (fun l => (l, (moveProject s P.id S).1.projects)) := by
  have hany : s.projects.any (fun p => decide (p.id = P.id)) = true := by
    rw [List.any_eq_true]
    exact ⟨P, hmem, by simp⟩
  unfold moveProject
  rw [if_pos hany]
  refine ⟨?_, ?_, ?_, rfl, notifyListeners_eq_map _ _⟩
  · rw [setStatusFirst_map_id]
    exact List.count_eq_one_of_mem hnd (List.mem_map_of_mem Project.id hmem)
  · exact setStatusFirst_status_of_id s.projects P.id S hnd
  · intro k hk
    exact setStatusFirst_getElem?_of_ne s.projects P.id S k hk

/-- C3 witness: moving the first of two distinct-id projects to
Finished. -/
theorem moveProject_found_spec_witness :
    (⟨"a", "t", "d", some 1, ProjectStatus.active⟩ : Project) ∈
      (⟨[⟨"a", "t", "d", some 1, ProjectStatus.active⟩,
         ⟨"b", "u", "e", some 2, ProjectStatus.active⟩], [0, 1]⟩ : ProjectState).projects ∧
    (((⟨[⟨"a", "t", "d", some 1, ProjectStatus.active⟩,
         ⟨"b", "u", "e", some 2, ProjectStatus.active⟩], [0, 1]⟩ :
        ProjectState).projects.map Project.id).Nodup) ∧
    (moveProject ⟨[⟨"a", "t", "d", some 1, ProjectStatus.active⟩,
         ⟨"b", "u", "e", some 2, ProjectStatus.active⟩], [0, 1]⟩ "a"
        ProjectStatus.finished).1.projects =
      [⟨"a", "t", "d", some 1, ProjectStatus.finished⟩,
       ⟨"b", "u", "e", some 2, ProjectStatus.active⟩] ∧
    (∀ q ∈ (moveProject ⟨[⟨"a", "t", "d", some 1, ProjectStatus.active⟩,
         ⟨"b", "u", "e", some 2, ProjectStatus.active⟩], [0, 1]⟩ "a"
        ProjectStatus.finished).1.projects, q.id = "a" → q.status = ProjectStatus.finished) :=
  ⟨by decide, by decide, by decide,
    (moveProject_found_spec
      ⟨[⟨"a", "t", "d", some 1, ProjectStatus.active⟩,
        ⟨"b", "u", "e", some 2, ProjectStatus.active⟩], [0, 1]⟩
      ⟨"a", "t", "d", some 1, ProjectStatus.active⟩ ProjectStatus.finished
      (by decide) (by decide)).2.1⟩

theorem applyStoreOp_move_map_id (s : ProjectState) (i : String) (st : ProjectStatus) :
    (applyStoreOp s (.move i st)).1.projects.map Project.id = s.projects.map Project.id := by
  simp only [applyStoreOp, moveProject]
  split
  · exact setStatusFirst_map_id _ _ _
  · rfl

theorem execStore_ids_nodup (ops : List StoreOp) :
    ∀ s : ProjectState, (s.projects.map Project.id ++ addIds ops).Nodup →
      ((execStore s ops).projects.map Project.id).Nodup := by
  induction ops with
  | nil =>
    intro s h
    rw [execStore]
    simpa [addIds] using h
  | cons op rest ih =>
    intro s h
    cases op with
    | add fid t d p =>
      rw [execStore]
      apply ih
      simp only [applyStoreOp, addProject, List.map_append]
      rw [List.append_assoc]
      simpa [addIds] using h
    | move i st =>
      rw [execStore]
      apply ih
      rw [applyStoreOp_move_map_id]
      simpa [addIds] using h

/-- C5 counterexample: two `addProject` calls whose `Math.random()` draws
collide produce two projects carrying the same id, so ids in a reachable
state need not be pairwise distinct. -/
theorem duplicate_ids_reachable_cex :
    ¬ (((execStore initialState
        [.add "0.5" "t" "d" (some 1), .add "0.5" "u" "e" (some 2)]).projects.map
          Project.id).Nodup) := by
  decide

/-- C5 amended: provided the id drawn for each creation differs from
every other drawn id (what the fresh random draw is intended to
guarantee), every reachable state has pairwise distinct project ids;
moreover no operation ever rewrites an existing id: the ids of the
projects already present are preserved, in order, by every call. -/
theorem project_ids_distinct_and_immutable (ops : List StoreOp)
    (h : (addIds ops).Nodup) :
    ((execStore initialState ops).projects.map Project.id).Nodup ∧
    ∀ (s : ProjectState) (op : StoreOp),
      ((applyStoreOp s op).1.projects.map Project.id).take s.projects.length =
        s.projects.map Project.id := by
  constructor
  · exact execStore_ids_nodup ops initialState (by simpa [initialState] using h)
  · intro s op
    cases op with
    | add fid t d p =>
      simp only [applyStoreOp, addProject, List.map_append]
      rw [show s.projects.length = (s.projects.map Project.id).length by simp]
      exact List.take_left _ _
    | move i st =>
      rw [applyStoreOp_move_map_id]
      rw [show s.projects.length = (s.projects.map Project.id).length by simp]
      exact List.take_length _

/-- C5 witness: distinct draws keep the ids of a concrete run
pairwise distinct. -/
theorem project_ids_distinct_and_immutable_witness :
    ((addIds [StoreOp.add "0.1" "t" "d" (some 1), StoreOp.add "0.2" "u" "e" (some 2),
        StoreOp.move "0.1" ProjectStatus.finished]).Nodup) ∧
    (((execStore initialState [StoreOp.add "0.1" "t" "d" (some 1),
        StoreOp.add "0.2" "u" "e" (some 2),
        StoreOp.move "0.1" ProjectStatus.finished]).projects.map Project.id).Nodup) :=
  ⟨by decide, (project_ids_distinct_and_immutable _ (by decide)).1⟩

/-- C6 counterexample: the snapshot handed to a listener is the shallow
copy `this.projects.slice()`; writing a status through the reference at
snapshot index 0 changes the project sequence the store observes. -/
theorem snapshot_shallow_copy_cex :
    (0 : Nat) ∈ snapshotRefs ⟨[0]⟩ ∧
    storeView (writeStatus ⟨fun _ => ⟨"p", "t", "d", some 1, ProjectStatus.active⟩⟩ 0
        ProjectStatus.finished) ⟨[0]⟩ ≠
      storeView ⟨fun _ => ⟨"p", "t", "d", some 1, ProjectStatus.active⟩⟩ ⟨[0]⟩ := by
  constructor
  · decide
  · intro h
    simp [storeView, writeStatus] at h

/-- C6 amended: a listener cannot change the store's reference sequence
through its snapshot (the snapshot array is a fresh copy), but the copy
is shallow: writing a status through any reference contained in the
snapshot makes that status visible in the store's own project sequence,
while all ids stay as they were. -/
theorem snapshot_element_mutation (h : Heap) (s : RefStore) (r : Nat)
    (st : ProjectStatus) (hr : r ∈ snapshotRefs s) :
    st ∈ (storeView (writeStatus h r st) s).map Project.status ∧
    (storeView (writeStatus h r st) s).map Project.id =
      (storeView h s).map Project.id := by
  constructor
  · rw [storeView, List.map_map]
    exact List.mem_map.mpr ⟨r, hr, by simp [writeStatus]⟩
  · rw [storeView, storeView, List.map_map, List.map_map]
    apply List.map_congr_left
    intro x _
    simp only [Function.comp_apply, writeStatus]
    split <;> rfl

/-- C6 witness: the shallow-copy propagation at a concrete heap holding
one active project. -/
theorem snapshot_element_mutation_witness :
    (0 : Nat) ∈ snapshotRefs ⟨[0]⟩ ∧
    ProjectStatus.finished ∈
      (storeView (writeStatus ⟨fun _ => ⟨"p", "t", "d", some 1, ProjectStatus.active⟩⟩ 0
        ProjectStatus.finished) ⟨[0]⟩).map Project.status :=
  ⟨by decide,
    (snapshot_element_mutation ⟨fun _ => ⟨"p", "t", "d", some 1, ProjectStatus.active⟩⟩
      ⟨[0]⟩ 0 ProjectStatus.finished (by decide)).1⟩

theorem boardStep_inv (b : BoardState) (op : StoreOp) (hb : BoardInv b) :
    BoardInv (boardStep b op) := by
  obtain ⟨hl, ha, hf⟩ := hb
  cases op with
  | add fid t d p =>
    refine ⟨by simp [boardStep, applyStoreOp, addProject, hl], ?_, ?_⟩
    · simp [boardStep, applyStoreOp, addProject, hl, applyCalls, notifyListeners]
    · simp [boardStep, applyStoreOp, addProject, hl, applyCalls, notifyListeners]
  | move i st =>
    by_cases hc : (b.store.projects.any fun p => decide (p.id = i)) = true
    · refine ⟨?_, ?_, ?_⟩ <;>
        simp [boardStep, applyStoreOp, moveProject, hc, hl, applyCalls, notifyListeners]
    · refine ⟨?_, ?_, ?_⟩ <;>
        simp [boardStep, applyStoreOp, moveProject, hc, hl, applyCalls, ha, hf]

theorem execBoard_inv (ops : List StoreOp) :
    ∀ b : BoardState, BoardInv b → BoardInv (execBoard b ops) := by
  induction ops with
  | nil => intro b hb; exact hb
  | cons op rest ih => intro b hb; exact ih _ (boardStep_inv b op hb)

theorem execBoard_store (ops : List StoreOp) :
    ∀ b : BoardState, (execBoard b ops).store = execStore b.store ops := by
  induction ops with
  | nil => intro b; rfl
  | cons op rest ih =>
    intro b
    rw [execBoard, execStore]
    exact ih _

theorem execStore_length (ops : List StoreOp) :
    ∀ s : ProjectState,
      (execStore s ops).projects.length = s.projects.length + countAdds ops := by
  induction ops with
  | nil =>
    intro s
    rw [execStore, countAdds]
    omega
  | cons op rest ih =>
    intro s
    cases op with
    | add fid t d p =>
      rw [execStore, ih, countAdds]
      simp only [applyStoreOp, addProject, List.length_append, List.length_singleton]
      omega
    | move i st =>
      rw [execStore, ih, countAdds]
      have hlen : (applyStoreOp s (.move i st)).1.projects.length = s.projects.length := by
        have hmap := congrArg List.length (applyStoreOp_move_map_id s i st)
        simpa using hmap
      rw [hlen]

theorem relevantProjects_active (l : List Project) :
    relevantProjects .active l =
      l.filter (fun proj => decide (proj.status = ProjectStatus.active)) := by
  simp [relevantProjects]

theorem relevantProjects_finished (l : List Project) :
    relevantProjects .finished l =
      l.filter (fun proj => decide (proj.status = ProjectStatus.finished)) := by
  simp [relevantProjects]

theorem relevant_length_partition (l : List Project) :
    (relevantProjects .active l).length + (relevantProjects .finished l).length = l.length := by
  rw [relevantProjects_active, relevantProjects_finished]
  induction l with
  | nil => rfl
  | cons p rest ih =>
    rw [List.filter_cons, List.filter_cons]
    cases hp : p.status <;> simp [hp] <;> omega

theorem no_shared_id_of_nodup (l : List Project) (hnd : (l.map Project.id).Nodup)
    (i : String) (ha : i ∈ (relevantProjects .active l).map Project.id)
    (hf : i ∈ (relevantProjects .finished l).map Project.id) : False := by
  obtain ⟨p, hp, hpi⟩ := List.mem_map.mp ha
  obtain ⟨q, hq, hqi⟩ := List.mem_map.mp hf
  rw [relevantProjects, List.mem_filter] at hp hq
  have hps : p.status = ProjectStatus.active := by
    have := hp.2
    simpa using this
  have hqs : q.status = ProjectStatus.finished := by
    have := hq.2
    simpa using this
  have hpq : p = q :=
    List.inj_on_of_nodup_map hnd hp.1 hq.1 (hpi.trans hqi.symm)
  rw [hpq, hqs] at hps
  cases hps

/-- C7 counterexample: when the random draws collide, an id can appear
in both columns at once — two projects share id "x", and moving "x"
to Finished retargets only the first, leaving the second Active. -/
theorem board_shared_id_cex :
    "x" ∈ (execBoard initialBoard
        [.add "x" "t" "d" (some 1), .add "x" "u" "e" (some 2),
         .move "x" .finished]).activeCache.map Project.id ∧
    "x" ∈ (execBoard initialBoard
        [.add "x" "t" "d" (some 1), .add "x" "u" "e" (some 2),
         .move "x" .finished]).finishedCache.map Project.id := by
  decide

/-- C7 amended: after any operation sequence whose creation draws are
pairwise distinct, each column's cached list is exactly the filter of
the store's sequence by that column's status, the two cached lengths sum
to the number of addProject calls, and no id appears in both columns
simultaneously. -/
theorem board_filtering (ops : List StoreOp) (h : (addIds ops).Nodup) :
    (execBoard initialBoard ops).activeCache =
      relevantProjects .active (execBoard initialBoard ops).store.projects ∧
    (execBoard initialBoard ops).finishedCache =
      relevantProjects .finished (execBoard initialBoard ops).store.projects ∧
    (execBoard initialBoard ops).activeCache.length +
      (execBoard initialBoard ops).finishedCache.length = countAdds ops ∧
    ∀ i : String,
      ¬ (i ∈ (execBoard initialBoard ops).activeCache.map Project.id ∧
         i ∈ (execBoard initialBoard ops).finishedCache.map Project.id) := by
  obtain ⟨hl, ha, hf⟩ : BoardInv (execBoard initialBoard ops) :=
    execBoard_inv ops initialBoard ⟨rfl, rfl, rfl⟩
  have hstore : (execBoard initialBoard ops).store = execStore initialBoard.store ops :=
    execBoard_store ops initialBoard
  have hnodup : ((execBoard initialBoard ops).store.projects.map Project.id).Nodup := by
    rw [hstore]
    exact execStore_ids_nodup ops initialBoard.store (by simpa [initialBoard] using h)
  refine ⟨ha, hf, ?_, ?_⟩
  · rw [ha, hf, relevant_length_partition, hstore, execStore_length]
    simp [initialBoard]
  · intro i hi
    exact no_shared_id_of_nodup _ hnodup i (ha ▸ hi.1) (hf ▸ hi.2)

/-- C7 witness: a concrete run with distinct draws — one project moved
to Finished — satisfies the filtering and counting conclusions. -/
theorem board_filtering_witness :
    ((addIds [StoreOp.add "0.1" "t" "d" (some 1), StoreOp.add "0.2" "u" "e" (some 2),
        StoreOp.move "0.1" ProjectStatus.finished]).Nodup) ∧
    (execBoard initialBoard [StoreOp.add "0.1" "t" "d" (some 1),
        StoreOp.add "0.2" "u" "e" (some 2),
        StoreOp.move "0.1" ProjectStatus.finished]).activeCache.length +
      (execBoard initialBoard [StoreOp.add "0.1" "t" "d" (some 1),
        StoreOp.add "0.2" "u" "e" (some 2),
        StoreOp.move "0.1" ProjectStatus.finished]).finishedCache.length =
      countAdds [StoreOp.add "0.1" "t" "d" (some 1), StoreOp.add "0.2" "u" "e" (some 2),
        StoreOp.move "0.1" ProjectStatus.finished] :=
  ⟨by decide, (board_filtering _ (by decide)).2.2.1⟩
